import Mathlib

/-!
# Verification of the SQLite database-merge core
  (`src/data_synthesis/database_merge/tools/merge_sqlite_databases.py`)

This file gives a shallow embedding of the `SQLiteMerger` class and proves
(or refutes) the specification claims about it.

Modelling conventions:
* Python strings are Lean `String`s; `s[:k]` (including negative `k`) is
  embedded by `pyTake` / `pySlice`, built on the character list.
* The SQLite engine itself is external to the repository, so the outcome of
  executing an individual `INSERT` (success, `sqlite3.IntegrityError`, or any
  other exception) and of executing a `CREATE TABLE` is part of the *input*
  (an oracle carried on each source row / source table).  All control flow
  around those outcomes is taken verbatim from the Python source.
* Wall-clock timestamps in log lines and audit rows are not modelled.
-/

/-- Python `s[:k]` for a non-negative bound: the first `k` characters. -/
def pyTake (s : String) (k : Nat) : String := ⟨s.data.take k⟩

/-- Python `s[:k]` for an arbitrary integer bound: a negative bound drops
characters from the end (clamping at the empty string). -/
def pySlice (s : String) (k : Int) : String :=
  if 0 ≤ k then pyTake s k.toNat else pyTake s (s.length - (-k).toNat)

/-! ### Injectivity of `Nat.repr`

The conflict-resolution loop appends `f"_{counter}"` suffixes; to show the
loop finds a fresh name within `existing.length + 1` attempts we need the
decimal representations of distinct counters to be distinct strings. -/

/-- The decimal digit characters of `n`, most significant first (the list
that `Nat.toDigits 10 n` produces, defined by structural recursion on the
value rather than on fuel). -/
def natDigits (n : Nat) : List Char :=
  if h : n < 10 then [Nat.digitChar n]
  else natDigits (n / 10) ++ [Nat.digitChar (n % 10)]
decreasing_by exact Nat.div_lt_self (by omega) (by omega)

/-! ### Data model

Oracles for the external SQLite engine: each source row carries the outcome
of its `INSERT` against the target (`merge_sqlite_databases.py:232-240`), each
source table carries the outcome of its `CREATE TABLE`
(`merge_sqlite_databases.py:189`), each source database carries whether
`get_database_schema` succeeds (`merge_sqlite_databases.py:101-140`). -/

/-- Result of executing one `INSERT` for a source row against the target:
success, `sqlite3.IntegrityError` (caught per row), or any other
exception (propagates out of the row loop). -/
inductive InsertOutcome where
  | ok
  | integrityError (msg : String)
  | fatalError (msg : String)
deriving DecidableEq, Repr

/-- Whether the outcome is an exception other than `sqlite3.IntegrityError`. -/
def InsertOutcome.isFatal : InsertOutcome → Bool
  | .fatalError _ => true
  | _ => false

/-- One row of a source table: its cell values plus the oracle outcome of
inserting it into the target. -/
structure SourceRow where
  data : List Int
  outcome : InsertOutcome
deriving DecidableEq, Repr

/-- One row of `PRAGMA table_info` for a source table (cid, name, type,
notnull, dflt_value, pk). -/
structure ColumnInfo where
  cid : Nat
  name : String
  ctype : String
  notnull : Bool
  dflt : Option String
  pk : Bool
deriving DecidableEq, Repr

/-- A source table as seen through `get_database_schema`: its name in
`sqlite_master`, its `PRAGMA table_info` rows (in order), its data rows
(in `SELECT *` order), and the oracle outcome of its `CREATE TABLE`. -/
structure SourceTable where
  name : String
  schema : List ColumnInfo
  rows : List SourceRow
  create_ok : Bool
deriving DecidableEq, Repr

/-- A source database file: the logical name derived from its parent
directory, whether `get_database_schema` succeeds on it, and its tables in
catalog order.  `get_database_schema` returns *all* tables of
`sqlite_master` with no name filtering (`merge_sqlite_databases.py:114`). -/
structure SourceDatabase where
  db_name : String
  readable : Bool
  tables : List SourceTable
deriving DecidableEq, Repr

/-- One row of the `merge_metadata` audit table
(`merge_sqlite_databases.py:290-294`; the timestamp column is not
modelled). -/
structure MetaRow where
  source_database : String
  original_table_name : String
  merged_table_name : String
  row_count : Nat
deriving DecidableEq, Repr

/-- One row of the `merge_conflicts` audit table
(`merge_sqlite_databases.py:81-91`; the timestamp column is not
modelled). -/
structure ConflictTableRow where
  conflict_type : String
  source_database : String
  table_name : String
  conflict_description : String
  resolution_method : String
deriving DecidableEq, Repr

/-- One value of the in-memory `self.conflict_resolution` dict
(`merge_sqlite_databases.py:192-195`). -/
structure ConflictResEntry where
  original_table : String
  resolution_method : String
deriving DecidableEq, Repr

/-- The `self.stats` dict (`merge_sqlite_databases.py:29-36`). -/
structure Stats where
  total_databases : Nat
  successful_merges : Nat
  failed_merges : Nat
  total_tables : Nat
  total_rows : Nat
  conflicts : Nat
deriving DecidableEq, Repr

/-- The target database file: the application tables created by the merge
(name and current rows, in creation order) plus the contents of the two
audit tables created by `initialize_output_database`. -/
structure TargetState where
  app_tables : List (String × List (List Int))
  metadata_rows : List MetaRow
  conflict_table_rows : List ConflictTableRow
deriving DecidableEq, Repr

/-- The table names in the target's `sqlite_master`
(`merge_sqlite_databases.py:266-267`): the two audit tables created first,
then the application tables in creation order. -/
def target_table_names (t : TargetState) : List String :=
  "merge_metadata" :: "merge_conflicts" :: t.app_tables.map Prod.fst

/-- Observable connection-level events of the merge pass, used to state the
commit-granularity claim: the start and end of each
`merge_single_database` call and each `self.conn.commit()`. -/
inductive MergeEvent where
  | sourceStart (db : String)
  | sourceDone (db : String) (ok : Bool)
  | commit
deriving DecidableEq, Repr

/-- The mutable state of a `SQLiteMerger` instance (plus the event trace). -/
structure MergerState where
  target : TargetState
  conflict_resolution : List (String × ConflictResEntry)
  stats : Stats
  log : List String
  events : List MergeEvent
deriving DecidableEq, Repr

/-- Configuration consumed by the merge core (`merge_sqlite_databases.py:20`). -/
structure Config where
  table_prefix_max_len : Nat
  enable_foreign_keys : Bool
deriving DecidableEq, Repr

/-! ### `SQLiteMerger.resolve_table_name_conflict`
(`merge_sqlite_databases.py:142-160`) -/

/-- The candidate name `f"{base_name}_{counter}"` tried by the uniqueness
loop. -/
def suffix_candidate (base : String) (counter : Nat) : String :=
  base ++ "_" ++ Nat.repr counter

/-- The `while final_name in existing_tables` loop
(`merge_sqlite_databases.py:156-158`).  The Python loop is unbounded; the
fuel argument is an embedding artifact, and `suffix_loop_fresh` below shows
that `existing.length + 1` attempts always suffice, so with that fuel this
equals the Python loop. -/
def suffix_loop (base : String) (existing : List String) :
    Nat → Nat → String
  | 0, counter => suffix_candidate base counter
  | fuel + 1, counter =>
    let c := suffix_candidate base counter
    if c ∈ existing then suffix_loop base existing fuel (counter + 1) else c

/-- Lines 154-160 of the source: return `base_name` itself if free,
otherwise append `_1`, `_2`, ... until unique. -/
def ensure_unique (base : String) (existing : List String) : String :=
  if base ∈ existing then suffix_loop base existing (existing.length + 1) 1
  else base

/-- The `base_name` computed on lines 145-151: the db-name prefix joined to
the table name, truncated when longer than `table_prefix_max_len`. -/
def truncated_base_name (max_len : Nat) (original_table db_name : String) :
    String :=
  let base0 := db_name ++ "_" ++ original_table
  if max_len < base0.length then
    let max_db_part := max 1 (max_len / 2 - 5)
    let db_part := pyTake db_name max_db_part
    let max_table_part : Int := (max_len : Int) - (db_part.length : Int) - 1
    db_part ++ "_" ++ pySlice original_table max_table_part
  else base0

/-- `SQLiteMerger.resolve_table_name_conflict`
(`merge_sqlite_databases.py:142-160`). -/
def resolve_table_name_conflict (max_len : Nat)
    (original_table db_name : String) (existing : List String) : String :=
  ensure_unique (truncated_base_name max_len original_table db_name) existing

/-! ### Merge operations -/

/-- Python dict assignment `d[k] = v`: replace in place if the key is
present, otherwise append (insertion order is preserved). -/
def dictInsert (l : List (String × ConflictResEntry)) (k : String)
    (v : ConflictResEntry) : List (String × ConflictResEntry) :=
  if l.any (fun p => p.1 == k) then
    l.map (fun p => if p.1 == k then (k, v) else p)
  else l ++ [(k, v)]

/-- Look a key up in the `conflict_resolution` dict. -/
def lookup_resolution (l : List (String × ConflictResEntry)) (k : String) :
    Option ConflictResEntry :=
  (l.find? (fun p => p.1 == k)).map Prod.snd

/-- Total number of rows in the tables of the given name in a table list. -/
def rows_total (ts : List (String × List (List Int))) (name : String) : Nat :=
  ((ts.filter (fun p => p.1 == name)).map (fun p => p.2.length)).sum

/-- Total number of rows present in the target table of the given name
(tables are keyed uniquely, so this is that table's row count). -/
def table_row_total (t : TargetState) (name : String) : Nat :=
  rows_total t.app_tables name

/-- Append freshly inserted rows to the target table of the given name. -/
def append_table_rows (ts : List (String × List (List Int))) (name : String)
    (rows : List (List Int)) : List (String × List (List Int)) :=
  ts.map (fun p => if p.1 == name then (p.1, p.2 ++ rows) else p)

/-- `'unknown' if not original_schema else original_schema[0][1]`:
the value stored in the `original_table` field on line 193 of the source —
note this is the *first column's name*, not the table name. -/
def first_column_name : List ColumnInfo → String
  | [] => "unknown"
  | c :: _ => c.name

/-- Rendering of a single skip log line
(`merge_sqlite_databases.py:240`). -/
def skip_log_line (target_table e : String) : String :=
  "跳过重复数据: " ++ target_table ++ " - " ++ e

/-- Result of the row-copy loop plus the early/exceptional exits of
`copy_table_data`. -/
structure CopyOutcome where
  written : List (List Int)
  inserted : Nat
  skipped : Nat
  skip_logs : List String
  fatal : Option String
deriving DecidableEq, Repr

/-- The `for row in rows` loop of `copy_table_data`
(`merge_sqlite_databases.py:232-240`): per-row `IntegrityError`s are caught,
counted, and only the first 5 are logged; any other exception stops the
loop (and propagates), leaving the already-inserted rows in place. -/
def copy_rows_loop (target_table : String) :
    List SourceRow → List (List Int) → Nat → Nat → List String → CopyOutcome
  | [], written, inserted, skipped, lgs =>
    ⟨written, inserted, skipped, lgs, none⟩
  | r :: rs, written, inserted, skipped, lgs =>
    match r.outcome with
    | .ok => copy_rows_loop target_table rs (written ++ [r.data])
        (inserted + 1) skipped lgs
    | .integrityError e =>
      let skipped1 := skipped + 1
      let lgs1 := if skipped1 ≤ 5 then lgs ++ [skip_log_line target_table e]
        else lgs
      copy_rows_loop target_table rs written inserted skipped1 lgs1
    | .fatalError e => ⟨written, inserted, skipped, lgs, some e⟩

/-- `SQLiteMerger.copy_table_data` (`merge_sqlite_databases.py:206-251`).
`inserted` is the Python return value: the count of successful inserts, or
0 when the source has no rows or a non-integrity exception occurred
(`written` still holds the rows inserted before the exception — sqlite
keeps them on the open connection). -/
def copy_table_data (tbl : SourceTable) (target_table : String) :
    CopyOutcome :=
  if tbl.rows.isEmpty then ⟨[], 0, 0, [], none⟩
  else
    let res := copy_rows_loop target_table tbl.rows [] 0 0 []
    match res.fatal with
    | some e => { res with inserted := 0, fatal := some e }
    | none => res

/-- Accumulator of the `for original_table in schema['tables']` loop inside
`merge_single_database` (`merge_sqlite_databases.py:270-298`). -/
structure MergeAcc where
  st : MergerState
  existing : List String
  db_table_count : Nat
  db_row_count : Nat
deriving Repr

/-- Lines 275-281 of the source: the target-side name for a source table —
conflict-resolved when its own name is already taken, verbatim
otherwise. -/
def resolved_name (cfg : Config) (db_name : String) (existing : List String)
    (tbl : SourceTable) : String :=
  if tbl.name ∈ existing then
    resolve_table_name_conflict cfg.table_prefix_max_len tbl.name db_name
      existing
  else tbl.name

/-- One iteration of that loop: resolve the name
(`merge_sqlite_databases.py:275-281`), `create_table_with_prefix`
(lines 162-204: on success record the in-memory conflict-resolution entry
and unconditionally increment `stats['conflicts']`), then on success copy
the data, insert the `merge_metadata` row, and update the running
counters (lines 285-298). -/
def merge_one_table (cfg : Config) (db_name : String) (acc : MergeAcc)
    (tbl : SourceTable) : MergeAcc :=
  let new_name := resolved_name cfg db_name acc.existing tbl
  let conflict_log :=
    if tbl.name ∈ acc.existing then
      ["表名冲突: " ++ tbl.name ++ " -> " ++ new_name]
    else []
  let s0 := acc.st
  if tbl.create_ok then
    let s1 : MergerState :=
      { s0 with
        target := { s0.target with
          app_tables := s0.target.app_tables ++ [(new_name, [])] }
        conflict_resolution := dictInsert s0.conflict_resolution new_name
          ⟨first_column_name tbl.schema, "prefix_with_db_name"⟩
        stats := { s0.stats with conflicts := s0.stats.conflicts + 1 }
        log := s0.log ++ conflict_log ++ ["创建表: " ++ new_name] }
    let cp := copy_table_data tbl new_name
    let s2 : MergerState :=
      { s1 with
        target := { s1.target with
          app_tables := append_table_rows s1.target.app_tables new_name
            cp.written
          metadata_rows := s1.target.metadata_rows ++
            [⟨db_name, tbl.name, new_name, cp.inserted⟩] }
        log := s1.log ++ cp.skip_logs }
    ⟨s2, acc.existing ++ [new_name], acc.db_table_count + 1,
      acc.db_row_count + cp.inserted⟩
  else
    { acc with
      st := { s0 with
        log := s0.log ++ conflict_log ++ ["创建表失败: " ++ new_name] } }

/-- `SQLiteMerger.merge_single_database`
(`merge_sqlite_databases.py:253-312`).  A failed introspection increments
`failed_merges` and leaves everything else unchanged; a successful one
reads the existing table names, folds the per-table step over the source's
tables, then bumps the per-database statistics. -/
def merge_single_database (cfg : Config) (s : MergerState)
    (db : SourceDatabase) : MergerState :=
  let s := { s with
    log := s.log ++ ["开始合并数据库: " ++ db.db_name]
    events := s.events ++ [.sourceStart db.db_name] }
  if db.readable then
    let acc := db.tables.foldl (merge_one_table cfg db.db_name)
      ⟨s, target_table_names s.target, 0, 0⟩
    let st := acc.st
    { st with
      stats := { st.stats with
        successful_merges := st.stats.successful_merges + 1
        total_tables := st.stats.total_tables + acc.db_table_count
        total_rows := st.stats.total_rows + acc.db_row_count }
      log := st.log ++ ["数据库合并完成: " ++ db.db_name]
      events := st.events ++ [.sourceDone db.db_name true] }
  else
    { s with
      stats := { s.stats with failed_merges := s.stats.failed_merges + 1 }
      log := s.log ++ ["获取数据库结构失败: " ++ db.db_name]
      events := s.events ++ [.sourceDone db.db_name false] }

/-- `SQLiteMerger.initialize_output_database`
(`merge_sqlite_databases.py:51-99`): fresh target with the two audit tables
and nothing else.  (Its own `commit` precedes the merge pass; the event
trace records the merge pass only.) -/
def init_output_database : MergerState :=
  { target := ⟨[], [], []⟩
    conflict_resolution := []
    stats := ⟨0, 0, 0, 0, 0, 0⟩
    log := ["输出数据库初始化成功"]
    events := [] }

/-- The `for db_file in sqlite_files` loop of `merge_all_databases`. -/
def merge_pass (cfg : Config) (s : MergerState)
    (sources : List SourceDatabase) : MergerState :=
  sources.foldl (merge_single_database cfg) s

/-- `SQLiteMerger.merge_all_databases`
(`merge_sqlite_databases.py:314-329`): record the number of discovered
files, process every source, then issue the single `self.conn.commit()`
after the loop. -/
def merge_all_databases (cfg : Config) (s : MergerState)
    (sources : List SourceDatabase) : MergerState :=
  let s1 := { s with
    stats := { s.stats with total_databases := sources.length } }
  let s2 := merge_pass cfg s1 sources
  { s2 with events := s2.events ++ [.commit] }

/-- The JSON report payload written by `generate_merge_report`
(`merge_sqlite_databases.py:360-374`): the final statistics and the full
in-memory conflict-resolution map (timestamp and output path omitted). -/
structure MergeReport where
  stats : Stats
  conflict_resolution : List (String × ConflictResEntry)
deriving DecidableEq, Repr

def generate_merge_report (s : MergerState) : MergeReport :=
  ⟨s.stats, s.conflict_resolution⟩

/-- The pipeline run by `main` (`merge_sqlite_databases.py:433-448`):
initialize the output database, merge all discovered sources, generate the
report. -/
def run_merger (cfg : Config) (sources : List SourceDatabase) :
    MergerState × MergeReport :=
  let s := merge_all_databases cfg init_output_database sources
  (s, generate_merge_report s)

/-! ### Characterization of the row copier when no non-integrity error occurs -/

/-- The values of the rows whose `INSERT` succeeds. -/
def ok_rows (rows : List SourceRow) : List (List Int) :=
  rows.filterMap (fun r => match r.outcome with
    | .ok => some r.data
    | _ => none)

/-- The messages of the rows whose `INSERT` raises `sqlite3.IntegrityError`,
in order. -/
def integrity_msgs (rows : List SourceRow) : List String :=
  rows.filterMap (fun r => match r.outcome with
    | .integrityError e => some e
    | _ => none)

/-! ### The run invariant -/

/-- No row of any table of `db` raises a non-integrity error on insert. -/
def FatalFreeDb (db : SourceDatabase) : Prop :=
  ∀ t ∈ db.tables, ∀ r ∈ t.rows, r.outcome.isFatal = false

def FatalFreeList (dbs : List SourceDatabase) : Prop :=
  ∀ db ∈ dbs, FatalFreeDb db

/-- The row-count-fidelity property of the spec: every `merge_metadata` row
records exactly the number of rows present in its merged table (all rows of
a merged table come from its one source table, since each merged table is
created fresh and written once). -/
def row_count_faithful (t : TargetState) : Prop :=
  ∀ m ∈ t.metadata_rows, m.row_count = table_row_total t m.merged_table_name

/-- Invariant maintained by the merge over the whole run: unique target
names, the conflict-resolution map keyed exactly by the created tables,
the conflict counter equal to the number of created tables, the
`merge_conflicts` table empty, every metadata row traceable to a processed
source table whose first column name is what the resolution map stores,
and (absent non-integrity errors) row-count fidelity. -/
structure MergerInv (processed : List SourceDatabase) (s : MergerState) :
    Prop where
  nodup : (target_table_names s.target).Nodup
  keys_eq : s.conflict_resolution.map Prod.fst =
    s.target.app_tables.map Prod.fst
  conflicts_eq : s.stats.conflicts = s.target.app_tables.length
  no_conflict_rows : s.target.conflict_table_rows = []
  res_method : ∀ p ∈ s.conflict_resolution,
    p.2.resolution_method = "prefix_with_db_name"
  meta_mem : ∀ m ∈ s.target.metadata_rows,
    m.merged_table_name ∈ s.target.app_tables.map Prod.fst
  meta_src : ∀ m ∈ s.target.metadata_rows, ∃ db ∈ processed, ∃ t ∈ db.tables,
    db.db_name = m.source_database ∧ t.name = m.original_table_name ∧
    lookup_resolution s.conflict_resolution m.merged_table_name =
      some ⟨first_column_name t.schema, "prefix_with_db_name"⟩
  fidelity : FatalFreeList processed → row_count_faithful s.target

/-- Invariant of the per-table loop inside `merge_single_database`: the
merger invariant plus the fact that the local `existing_tables` set tracks
the target's `sqlite_master` exactly. -/
structure AccInv (processed : List SourceDatabase) (db : SourceDatabase)
    (acc : MergeAcc) : Prop where
  inv : MergerInv (processed ++ [db]) acc.st
  exist_eq : acc.existing = target_table_names acc.st.target

/-! ### Event-trace and statistics lemmas -/

/-- Number of `conn.commit()` calls in an event trace. -/
def commit_count (evs : List MergeEvent) : Nat :=
  (evs.filter (fun e => match e with | .commit => true | _ => false)).length

/-- Number of completed (successful or failed) `merge_single_database`
calls in an event trace. -/
def completed_count (evs : List MergeEvent) : Nat :=
  (evs.filter (fun e => match e with
    | .sourceDone _ _ => true
    | _ => false)).length

/-- The commit-granularity property the spec asserts of the merge pass:
one commit per completed source database. -/
def one_commit_per_completed_source (s : MergerState) : Prop :=
  commit_count s.events = completed_count s.events

/-! ### Claim-level predicates -/

/-- The C3 claim: one `merge_conflicts` row persisted per table creation. -/
def conflict_rows_match_creations (s : MergerState) : Prop :=
  s.target.conflict_table_rows.length = s.target.app_tables.length

/-- The C6 claim, observed through the audit trail: source tables named
like the audit tables are never merged (hence never appear as the original
name of a metadata row). -/
def audit_names_excluded (s : MergerState) : Prop :=
  ∀ m ∈ s.target.metadata_rows,
    m.original_table_name ≠ "merge_metadata" ∧
    m.original_table_name ≠ "merge_conflicts"

instance (db : SourceDatabase) : Decidable (FatalFreeDb db) :=
  inferInstanceAs (Decidable
    (∀ t ∈ db.tables, ∀ r ∈ t.rows, r.outcome.isFatal = false))

instance (dbs : List SourceDatabase) : Decidable (FatalFreeList dbs) :=
  inferInstanceAs (Decidable (∀ db ∈ dbs, FatalFreeDb db))

instance (t : TargetState) : Decidable (row_count_faithful t) :=
  inferInstanceAs (Decidable
    (∀ m ∈ t.metadata_rows, m.row_count = table_row_total t m.merged_table_name))

instance (s : MergerState) : Decidable (one_commit_per_completed_source s) :=
  inferInstanceAs (Decidable (commit_count s.events = completed_count s.events))

instance (s : MergerState) : Decidable (conflict_rows_match_creations s) :=
  inferInstanceAs (Decidable
    (s.target.conflict_table_rows.length = s.target.app_tables.length))

instance (s : MergerState) : Decidable (audit_names_excluded s) :=
  inferInstanceAs (Decidable (∀ m ∈ s.target.metadata_rows,
    m.original_table_name ≠ "merge_metadata" ∧
    m.original_table_name ≠ "merge_conflicts"))

/-! ### Theorems -/

theorem pyTake_length (s : String) (k : Nat) :
    (pyTake s k).length = min k s.length := by
  show (s.data.take k).length = min k s.data.length
  exact List.length_take k s.data

theorem digitChar_toNat : ∀ d, d < 10 → (Nat.digitChar d).toNat = 48 + d := by
  decide

theorem toDigitsCore_eq_natDigits :
    ∀ (fuel n : Nat) (ds : List Char), n < fuel →
      Nat.toDigitsCore 10 fuel n ds = natDigits n ++ ds := by
  intro fuel
  induction fuel with
  | zero => intro n ds h; omega
  | succ f ih =>
    intro n ds h
    rw [natDigits]
    by_cases h10 : n < 10
    · have hdiv : n / 10 = 0 := Nat.div_eq_of_lt h10
      have hmod : n % 10 = n := Nat.mod_eq_of_lt h10
      simp [Nat.toDigitsCore, hdiv, hmod, h10]
    · have hdiv : ¬ n / 10 = 0 := by
        have h1 : 1 ≤ n / 10 := (Nat.le_div_iff_mul_le (by omega)).mpr (by omega)
        omega
      have hlt : n / 10 < f := by
        have h1 : n / 10 < n := Nat.div_lt_self (by omega) (by omega)
        omega
      simp only [Nat.toDigitsCore, hdiv, if_false, dif_neg h10]
      rw [ih (n / 10) _ hlt]
      simp

theorem toDigits_eq_natDigits (n : Nat) : Nat.toDigits 10 n = natDigits n := by
  have := toDigitsCore_eq_natDigits (n + 1) n [] (Nat.lt_succ_self n)
  simpa [Nat.toDigits] using this

/-- Folding the decimal digits back into a number recovers it. -/
theorem foldl_natDigits (n : Nat) :
    ∀ a : Nat,
      List.foldl (fun acc c => acc * 10 + (c.toNat - 48)) a (natDigits n) =
        a * 10 ^ (natDigits n).length + n := by
  induction n using Nat.strong_induction_on with
  | _ n ih =>
    intro a
    rw [natDigits]
    by_cases h10 : n < 10
    · simp only [dif_pos h10, List.foldl_cons, List.foldl_nil, List.length_cons,
        List.length_nil]
      rw [digitChar_toNat n h10]
      omega
    · have h1 : n / 10 < n := Nat.div_lt_self (by omega) (by omega)
      simp only [dif_neg h10, List.foldl_append, List.foldl_cons, List.foldl_nil,
        List.length_append, List.length_cons, List.length_nil]
      rw [ih (n / 10) h1 a, digitChar_toNat (n % 10) (Nat.mod_lt n (by omega))]
      have hdm : 10 * (n / 10) + n % 10 = n := Nat.div_add_mod n 10
      have hpow : 10 ^ ((natDigits (n / 10)).length + (0 + 1)) =
          10 ^ (natDigits (n / 10)).length * 10 := by
        rw [Nat.add_comm 0 1]
        exact pow_succ 10 _
      rw [hpow]
      generalize (10 : Nat) ^ (natDigits (n / 10)).length = x
      have : (a * x + n / 10) * 10 = a * (x * 10) + (n / 10) * 10 := by ring
      omega

theorem repr_injective : Function.Injective Nat.repr := by
  intro m n h
  have hdigits : natDigits m = natDigits n := by
    have hm : Nat.repr m = (natDigits m).asString := by
      rw [Nat.repr, toDigits_eq_natDigits]
    have hn : Nat.repr n = (natDigits n).asString := by
      rw [Nat.repr, toDigits_eq_natDigits]
    have : (natDigits m).asString = (natDigits n).asString := by
      rw [← hm, ← hn, h]
    exact congrArg String.data this
  have hm := foldl_natDigits m 0
  have hn := foldl_natDigits n 0
  rw [hdigits] at hm
  rw [hn] at hm
  omega

theorem suffix_candidate_injective (base : String) :
    Function.Injective (suffix_candidate base) := by
  intro m n h
  have hdata : (base ++ "_").data ++ (Nat.repr m).data =
      (base ++ "_").data ++ (Nat.repr n).data := by
    have h1 : (base ++ "_" ++ Nat.repr m).data =
        (base ++ "_" ++ Nat.repr n).data := congrArg String.data h
    simpa [String.data_append, List.append_assoc] using h1
  have h2 : (Nat.repr m).data = (Nat.repr n).data :=
    List.append_cancel_left hdata
  exact repr_injective (String.ext h2)

theorem suffix_loop_spec (base : String) (existing : List String) :
    ∀ fuel counter,
      suffix_loop base existing fuel counter ∉ existing ∨
        ∀ i < fuel, suffix_candidate base (counter + i) ∈ existing := by
  intro fuel
  induction fuel with
  | zero => intro counter; right; intro i hi; omega
  | succ f ih =>
    intro counter
    by_cases hmem : suffix_candidate base counter ∈ existing
    · rcases ih (counter + 1) with hfresh | hall
      · left; simpa [suffix_loop, hmem] using hfresh
      · right
        intro i hi
        match i with
        | 0 => simpa using hmem
        | j + 1 =>
          have := hall j (by omega)
          have harr : counter + (j + 1) = counter + 1 + j := by omega
          rw [harr]
          exact this
    · left; simpa [suffix_loop, hmem] using hmem

/-- With fuel `existing.length + 1` the uniqueness loop always returns a
name that is not in `existing`: otherwise `existing.length + 1` pairwise
distinct candidate strings would all be members of `existing`. -/
theorem suffix_loop_fresh (base : String) (existing : List String)
    (counter : Nat) :
    suffix_loop base existing (existing.length + 1) counter ∉ existing := by
  rcases suffix_loop_spec base existing (existing.length + 1) counter with
    hfresh | hall
  · exact hfresh
  · exfalso
    set L := existing.length with hL
    have hsub : (Finset.range (L + 1)).image
        (fun i => suffix_candidate base (counter + i)) ⊆ existing.toFinset := by
      intro x hx
      rcases Finset.mem_image.mp hx with ⟨i, hi, rfl⟩
      exact List.mem_toFinset.mpr (hall i (Finset.mem_range.mp hi))
    have hinj : Set.InjOn (fun i => suffix_candidate base (counter + i))
        (Finset.range (L + 1)) := by
      intro i _ j _ hij
      have := suffix_candidate_injective base hij
      omega
    have hcard : ((Finset.range (L + 1)).image
        (fun i => suffix_candidate base (counter + i))).card = L + 1 := by
      rw [Finset.card_image_of_injOn hinj, Finset.card_range]
    have h1 : L + 1 ≤ existing.toFinset.card := by
      rw [← hcard]
      exact Finset.card_le_card hsub
    have h2 : existing.toFinset.card ≤ L := List.toFinset_card_le existing
    omega

theorem ensure_unique_not_mem (base : String) (existing : List String) :
    ensure_unique base existing ∉ existing := by
  unfold ensure_unique
  by_cases hmem : base ∈ existing
  · simpa [hmem] using suffix_loop_fresh base existing 1
  · simpa [hmem] using hmem

theorem resolve_not_mem (max_len : Nat) (original_table db_name : String)
    (existing : List String) :
    resolve_table_name_conflict max_len original_table db_name existing ∉
      existing :=
  ensure_unique_not_mem _ existing

/-! ### Small lemmas about the auxiliary operations -/

theorem dictInsert_not_mem (l : List (String × ConflictResEntry)) (k : String)
    (v : ConflictResEntry) (h : k ∉ l.map Prod.fst) :
    dictInsert l k v = l ++ [(k, v)] := by
  unfold dictInsert
  have hany : l.any (fun p => p.1 == k) = false := by
    rw [List.any_eq_false]
    intro p hp
    simp only [beq_iff_eq]
    intro he
    exact h (he ▸ List.mem_map_of_mem Prod.fst hp)
  simp [hany]

theorem append_table_rows_not_mem (ts : List (String × List (List Int)))
    (n : String) (rows : List (List Int)) (h : n ∉ ts.map Prod.fst) :
    append_table_rows ts n rows = ts := by
  induction ts with
  | nil => rfl
  | cons p ps ih =>
    simp only [List.map_cons, List.mem_cons, not_or] at h
    have hne : (p.1 == n) = false := by
      simp only [beq_eq_false_iff_ne, ne_eq]
      intro he
      exact h.1 (he ▸ rfl)
    simp only [append_table_rows, List.map_cons, hne, if_neg Bool.false_ne_true]
    rw [show ps.map (fun p => if p.1 == n then (p.1, p.2 ++ rows) else p) =
        append_table_rows ps n rows from rfl, ih h.2]

theorem append_table_rows_fresh (app : List (String × List (List Int)))
    (n : String) (rows : List (List Int)) (h : n ∉ app.map Prod.fst) :
    append_table_rows (app ++ [(n, [])]) n rows = app ++ [(n, rows)] := by
  unfold append_table_rows
  rw [List.map_append]
  rw [show app.map (fun p => if p.1 == n then (p.1, p.2 ++ rows) else p) =
      append_table_rows app n rows from rfl, append_table_rows_not_mem app n rows h]
  simp

/-- Row totals split over list append. -/
theorem rows_total_append (ts us : List (String × List (List Int)))
    (n : String) :
    rows_total (ts ++ us) n = rows_total ts n + rows_total us n := by
  simp [rows_total, List.filter_append]

theorem rows_total_singleton (k : String) (r : List (List Int)) (n : String) :
    rows_total [(k, r)] n = if k == n then r.length else 0 := by
  by_cases h : (k == n) = true <;> simp [rows_total, h]

theorem rows_total_not_mem (ts : List (String × List (List Int)))
    (n : String) (h : n ∉ ts.map Prod.fst) : rows_total ts n = 0 := by
  induction ts with
  | nil => rfl
  | cons p ps ih =>
    simp only [List.map_cons, List.mem_cons, not_or] at h
    have hne : (p.1 == n) = false := by
      simp only [beq_eq_false_iff_ne, ne_eq]
      intro he
      exact h.1 (he ▸ rfl)
    simp only [rows_total, List.filter_cons, hne, if_neg Bool.false_ne_true]
    exact ih h.2

theorem lookup_resolution_append_left (l1 l2 : List (String × ConflictResEntry))
    (k : String) (v : ConflictResEntry)
    (h : lookup_resolution l1 k = some v) :
    lookup_resolution (l1 ++ l2) k = some v := by
  unfold lookup_resolution at h ⊢
  rcases hf : l1.find? (fun p => p.1 == k) with _ | p
  · rw [hf] at h; exact absurd h (by simp)
  · rw [hf] at h
    rw [List.find?_append, hf]
    simpa using h

theorem lookup_resolution_append_fresh (l : List (String × ConflictResEntry))
    (k : String) (v : ConflictResEntry) (h : k ∉ l.map Prod.fst) :
    lookup_resolution (l ++ [(k, v)]) k = some v := by
  unfold lookup_resolution
  rw [List.find?_append]
  have hnone : l.find? (fun p => p.1 == k) = none := by
    rw [List.find?_eq_none]
    intro p hp
    simp only [beq_iff_eq]
    intro he
    exact h (he ▸ List.mem_map_of_mem Prod.fst hp)
  simp [hnone, Option.orElse, List.find?]

theorem copy_rows_loop_char (tt : String) :
    ∀ (rows : List SourceRow) (written : List (List Int))
      (ins skip : Nat) (lgs : List String),
      (∀ r ∈ rows, r.outcome.isFatal = false) →
      copy_rows_loop tt rows written ins skip lgs =
        ⟨written ++ ok_rows rows, ins + (ok_rows rows).length,
         skip + (integrity_msgs rows).length,
         lgs ++ ((integrity_msgs rows).take (5 - skip)).map (skip_log_line tt),
         none⟩ := by
  intro rows
  induction rows with
  | nil => intro written ins skip lgs _; simp [copy_rows_loop, ok_rows,
      integrity_msgs]
  | cons r rs ih =>
    intro written ins skip lgs hff
    have hr := hff r (List.mem_cons_self r rs)
    have hrs : ∀ x ∈ rs, x.outcome.isFatal = false := fun x hx =>
      hff x (List.mem_cons_of_mem r hx)
    match ho : r.outcome with
    | .ok =>
      simp only [copy_rows_loop, ho]
      rw [ih (written ++ [r.data]) (ins + 1) skip lgs hrs]
      have h1 : ok_rows (r :: rs) = r.data :: ok_rows rs := by
        simp [ok_rows, List.filterMap_cons, ho]
      have h2 : integrity_msgs (r :: rs) = integrity_msgs rs := by
        simp [integrity_msgs, List.filterMap_cons, ho]
      simp [h1, h2, Nat.add_assoc, Nat.add_comm 1]
    | .integrityError e =>
      simp only [copy_rows_loop, ho]
      rw [ih written ins (skip + 1)
        (if skip + 1 ≤ 5 then lgs ++ [skip_log_line tt e] else lgs) hrs]
      have h1 : ok_rows (r :: rs) = ok_rows rs := by
        simp [ok_rows, List.filterMap_cons, ho]
      have h2 : integrity_msgs (r :: rs) = e :: integrity_msgs rs := by
        simp [integrity_msgs, List.filterMap_cons, ho]
      by_cases hle : skip + 1 ≤ 5
      · have htake : 5 - skip = (5 - (skip + 1)) + 1 := by omega
        simp only [h1, h2, if_pos hle, htake, List.take_succ_cons,
          List.map_cons, List.length_cons, CopyOutcome.mk.injEq]
        repeat' apply And.intro
        all_goals first | rfl | omega | trivial | simp [List.append_assoc]
      · have htake5 : 5 - skip = 0 := by omega
        have htake6 : 5 - (skip + 1) = 0 := by omega
        simp only [h1, h2, if_neg hle, htake5, htake6, List.take_zero,
          List.map_nil, List.append_nil, List.length_cons,
          CopyOutcome.mk.injEq]
        repeat' apply And.intro
        all_goals first | rfl | omega | trivial
    | .fatalError e => simp [InsertOutcome.isFatal, ho] at hr

/-- `copy_table_data` on a table none of whose rows raises a non-integrity
error: every `ok` row is inserted (and returned as the count), every
integrity failure is skipped and counted, and only the first 5 skip causes
are logged. -/
theorem copy_table_data_char (tbl : SourceTable) (tt : String)
    (h : ∀ r ∈ tbl.rows, r.outcome.isFatal = false) :
    copy_table_data tbl tt =
      ⟨ok_rows tbl.rows, (ok_rows tbl.rows).length,
       (integrity_msgs tbl.rows).length,
       ((integrity_msgs tbl.rows).take 5).map (skip_log_line tt), none⟩ := by
  unfold copy_table_data
  by_cases hemp : tbl.rows.isEmpty
  · rw [if_pos hemp]
    rw [List.isEmpty_iff] at hemp
    simp [hemp, ok_rows, integrity_msgs]
  · rw [if_neg hemp]
    rw [copy_rows_loop_char tt tbl.rows [] 0 0 [] h]
    simp

/-- In every case (fatal or not), the rows actually written by
`copy_table_data` and its returned count, skip count and skip log
only depend on the source rows as the loop does. When a fatal error
occurs the returned count is 0 regardless of what was written. -/
theorem copy_table_data_fatal_returns_zero (tbl : SourceTable) (tt : String)
    (e : String)
    (h : (copy_rows_loop tt tbl.rows [] 0 0 []).fatal = some e)
    (hne : tbl.rows.isEmpty = false) :
    (copy_table_data tbl tt).inserted = 0 := by
  unfold copy_table_data
  rw [if_neg (by simp [hne])]
  simp [h]

/-- The names a freshly resolved table may take are never already present. -/
theorem resolved_name_not_mem (cfg : Config) (db_name : String)
    (existing : List String) (tbl : SourceTable) :
    resolved_name cfg db_name existing tbl ∉ existing := by
  unfold resolved_name
  by_cases hmem : tbl.name ∈ existing
  · simpa [hmem] using resolve_not_mem cfg.table_prefix_max_len tbl.name
      db_name existing
  · simpa [hmem] using hmem

theorem MergerInv.mono {processed processed2 : List SourceDatabase}
    {s : MergerState} (h : MergerInv processed s)
    (hsub : ∀ x ∈ processed, x ∈ processed2) : MergerInv processed2 s := by
  refine ⟨h.nodup, h.keys_eq, h.conflicts_eq, h.no_conflict_rows,
    h.res_method, h.meta_mem, ?_, ?_⟩
  · intro m hm
    rcases h.meta_src m hm with ⟨db, hdb, t, ht, hprops⟩
    exact ⟨db, hsub db hdb, t, ht, hprops⟩
  · intro hff
    exact h.fidelity (fun db hdb => hff db (hsub db hdb))

theorem merge_one_table_fail (cfg : Config) (db_name : String)
    (acc : MergeAcc) (tbl : SourceTable) (hc : tbl.create_ok = false) :
    (merge_one_table cfg db_name acc tbl).st.target = acc.st.target ∧
    (merge_one_table cfg db_name acc tbl).st.conflict_resolution =
      acc.st.conflict_resolution ∧
    (merge_one_table cfg db_name acc tbl).st.stats = acc.st.stats ∧
    (merge_one_table cfg db_name acc tbl).st.events = acc.st.events ∧
    (merge_one_table cfg db_name acc tbl).existing = acc.existing ∧
    (merge_one_table cfg db_name acc tbl).db_table_count =
      acc.db_table_count ∧
    (merge_one_table cfg db_name acc tbl).db_row_count = acc.db_row_count :=
  by simp [merge_one_table, hc]

theorem merge_one_table_ok_eq (cfg : Config) (db_name : String)
    (acc : MergeAcc) (tbl : SourceTable) (hc : tbl.create_ok = true) :
    merge_one_table cfg db_name acc tbl =
      ⟨{ target :=
          { app_tables := append_table_rows
              (acc.st.target.app_tables ++
                [(resolved_name cfg db_name acc.existing tbl, [])])
              (resolved_name cfg db_name acc.existing tbl)
              (copy_table_data tbl
                (resolved_name cfg db_name acc.existing tbl)).written
            metadata_rows := acc.st.target.metadata_rows ++
              [⟨db_name, tbl.name, resolved_name cfg db_name acc.existing tbl,
                (copy_table_data tbl
                  (resolved_name cfg db_name acc.existing tbl)).inserted⟩]
            conflict_table_rows := acc.st.target.conflict_table_rows }
         conflict_resolution := dictInsert acc.st.conflict_resolution
           (resolved_name cfg db_name acc.existing tbl)
           ⟨first_column_name tbl.schema, "prefix_with_db_name"⟩
         stats := { acc.st.stats with
           conflicts := acc.st.stats.conflicts + 1 }
         log := acc.st.log ++
           (if tbl.name ∈ acc.existing then
             ["表名冲突: " ++ tbl.name ++ " -> " ++
               resolved_name cfg db_name acc.existing tbl]
            else []) ++
           ["创建表: " ++ resolved_name cfg db_name acc.existing tbl] ++
           (copy_table_data tbl
             (resolved_name cfg db_name acc.existing tbl)).skip_logs
         events := acc.st.events },
       acc.existing ++ [resolved_name cfg db_name acc.existing tbl],
       acc.db_table_count + 1,
       acc.db_row_count + (copy_table_data tbl
         (resolved_name cfg db_name acc.existing tbl)).inserted⟩ := by
  simp [merge_one_table, hc]

/-- Appending one freshly created table (with its copied rows, its metadata
row, and its conflict-resolution entry) preserves the loop invariant. -/
theorem AccInv.snoc (processed : List SourceDatabase) (db : SourceDatabase)
    (acc : MergeAcc) (tbl : SourceTable) (nn : String) (cp : CopyOutcome)
    (lg : List String) (htbl : tbl ∈ db.tables)
    (h : AccInv processed db acc)
    (hfreshT : nn ∉ target_table_names acc.st.target)
    (hcp : (∀ r ∈ tbl.rows, r.outcome.isFatal = false) →
      cp.written.length = cp.inserted) :
    AccInv processed db
      ⟨{ target :=
          { app_tables := acc.st.target.app_tables ++ [(nn, cp.written)]
            metadata_rows := acc.st.target.metadata_rows ++
              [⟨db.db_name, tbl.name, nn, cp.inserted⟩]
            conflict_table_rows := acc.st.target.conflict_table_rows }
         conflict_resolution := acc.st.conflict_resolution ++
           [(nn, ⟨first_column_name tbl.schema, "prefix_with_db_name"⟩)]
         stats := { acc.st.stats with
           conflicts := acc.st.stats.conflicts + 1 }
         log := lg
         events := acc.st.events },
       acc.existing ++ [nn], acc.db_table_count + 1,
       acc.db_row_count + cp.inserted⟩ := by
  have hfreshA : nn ∉ acc.st.target.app_tables.map Prod.fst := by
    intro hmem
    exact hfreshT (by simp [target_table_names, hmem])
  have hfreshK : nn ∉ acc.st.conflict_resolution.map Prod.fst := by
    rw [h.inv.keys_eq]; exact hfreshA
  have hnames : target_table_names
      { app_tables := acc.st.target.app_tables ++ [(nn, cp.written)]
        metadata_rows := acc.st.target.metadata_rows ++
          [⟨db.db_name, tbl.name, nn, cp.inserted⟩]
        conflict_table_rows := acc.st.target.conflict_table_rows } =
      target_table_names acc.st.target ++ [nn] := by
    simp [target_table_names]
  refine ⟨⟨?_, ?_, ?_, ?_, ?_, ?_, ?_, ?_⟩, ?_⟩
  · rw [hnames, List.nodup_append]
    refine ⟨h.inv.nodup, List.nodup_singleton nn, ?_⟩
    intro a ha hb
    rw [List.mem_singleton] at hb
    exact hfreshT (hb ▸ ha)
  · simp [h.inv.keys_eq]
  · simp [h.inv.conflicts_eq]
  · exact h.inv.no_conflict_rows
  · intro p hp
    rcases List.mem_append.mp hp with hold | hnew
    · exact h.inv.res_method p hold
    · rw [List.mem_singleton] at hnew
      rw [hnew]
  · intro m hm
    rcases List.mem_append.mp hm with hold | hnew
    · have := h.inv.meta_mem m hold
      simp only [List.map_append, List.map_cons, List.map_nil]
      exact List.mem_append_left _ this
    · rw [List.mem_singleton] at hnew
      subst hnew
      simp
  · intro m hm
    rcases List.mem_append.mp hm with hold | hnew
    · rcases h.inv.meta_src m hold with ⟨db2, hdb2, t2, ht2, hn2, ho2, hl2⟩
      exact ⟨db2, hdb2, t2, ht2, hn2, ho2,
        lookup_resolution_append_left _ _ _ _ hl2⟩
    · rw [List.mem_singleton] at hnew
      subst hnew
      refine ⟨db, List.mem_append_right _ (List.mem_singleton_self db),
        tbl, htbl, rfl, rfl, ?_⟩
      exact lookup_resolution_append_fresh _ nn _ hfreshK
  · intro hff
    have hfid := h.inv.fidelity hff
    have hdbmem : db ∈ processed ++ [db] :=
      List.mem_append_right _ (List.mem_singleton_self db)
    have htblff : ∀ r ∈ tbl.rows, r.outcome.isFatal = false :=
      hff db hdbmem tbl htbl
    have hlen := hcp htblff
    intro m hm
    rcases List.mem_append.mp hm with hold | hnew
    · have hmerged := h.inv.meta_mem m hold
      have hne : (nn == m.merged_table_name) = false := by
        rw [beq_eq_false_iff_ne]
        intro he
        exact hfreshA (he ▸ hmerged)
      have := hfid m hold
      simp only [table_row_total, rows_total_append, rows_total_singleton,
        hne, if_neg Bool.false_ne_true] at this ⊢
      omega
    · rw [List.mem_singleton] at hnew
      subst hnew
      simp only [table_row_total, rows_total_append, rows_total_singleton,
        beq_self_eq_true, if_true]
      rw [rows_total_not_mem _ _ hfreshA]
      omega
  · rw [h.exist_eq, hnames]

/-- `merge_one_table` preserves the loop invariant. -/
theorem merge_one_table_inv (cfg : Config) (processed : List SourceDatabase)
    (db : SourceDatabase) (acc : MergeAcc) (tbl : SourceTable)
    (htbl : tbl ∈ db.tables) (h : AccInv processed db acc) :
    AccInv processed db (merge_one_table cfg db.db_name acc tbl) := by
  by_cases hc : tbl.create_ok
  · rw [merge_one_table_ok_eq cfg db.db_name acc tbl hc]
    have hfreshT : resolved_name cfg db.db_name acc.existing tbl ∉
        target_table_names acc.st.target := by
      rw [← h.exist_eq]
      exact resolved_name_not_mem cfg db.db_name acc.existing tbl
    have hfreshA : resolved_name cfg db.db_name acc.existing tbl ∉
        acc.st.target.app_tables.map Prod.fst := by
      intro hmem
      exact hfreshT (by simp [target_table_names, hmem])
    have hfreshK : resolved_name cfg db.db_name acc.existing tbl ∉
        acc.st.conflict_resolution.map Prod.fst := by
      rw [h.inv.keys_eq]; exact hfreshA
    rw [append_table_rows_fresh _ _ _ hfreshA, dictInsert_not_mem _ _ _ hfreshK]
    refine AccInv.snoc processed db acc tbl _ _ _ htbl h hfreshT ?_
    intro hff
    rw [copy_table_data_char tbl _ hff]
  · have hc2 : tbl.create_ok = false := by simpa using hc
    obtain ⟨ht, hcr, hst, hev, hex, htc, hrc⟩ :=
      merge_one_table_fail cfg db.db_name acc tbl hc2
    refine ⟨⟨?_, ?_, ?_, ?_, ?_, ?_, ?_, ?_⟩, ?_⟩
    · rw [ht]; exact h.inv.nodup
    · rw [hcr, ht]; exact h.inv.keys_eq
    · rw [hst, ht]; exact h.inv.conflicts_eq
    · rw [ht]; exact h.inv.no_conflict_rows
    · rw [hcr]; exact h.inv.res_method
    · rw [ht]; exact h.inv.meta_mem
    · rw [ht, hcr]; exact h.inv.meta_src
    · rw [ht]; exact h.inv.fidelity
    · rw [hex, ht]; exact h.exist_eq

theorem merge_tables_fold_inv (cfg : Config)
    (processed : List SourceDatabase) (db : SourceDatabase) :
    ∀ (tbls : List SourceTable) (acc : MergeAcc),
      (∀ t ∈ tbls, t ∈ db.tables) → AccInv processed db acc →
      AccInv processed db
        (tbls.foldl (merge_one_table cfg db.db_name) acc) := by
  intro tbls
  induction tbls with
  | nil => intro acc _ h; exact h
  | cons t rest ih =>
    intro acc hsub h
    have h1 := merge_one_table_inv cfg processed db acc t
      (hsub t (List.mem_cons_self t rest)) h
    exact ih _ (fun x hx => hsub x (List.mem_cons_of_mem t hx)) h1

/-- A failed introspection touches only `failed_merges`, the log, and the
event trace. -/
theorem merge_single_unreadable (cfg : Config) (s : MergerState)
    (db : SourceDatabase) (hr : db.readable = false) :
    (merge_single_database cfg s db).target = s.target ∧
    (merge_single_database cfg s db).conflict_resolution =
      s.conflict_resolution ∧
    (merge_single_database cfg s db).stats =
      { s.stats with failed_merges := s.stats.failed_merges + 1 } := by
  simp [merge_single_database, hr]

/-- `merge_single_database` preserves the merger invariant, extending the
processed-source list. -/
theorem merge_single_inv (cfg : Config) (processed : List SourceDatabase)
    (s : MergerState) (db : SourceDatabase) (h : MergerInv processed s) :
    MergerInv (processed ++ [db]) (merge_single_database cfg s db) := by
  have hmono : MergerInv (processed ++ [db]) s :=
    h.mono (fun x hx => List.mem_append_left _ hx)
  by_cases hr : db.readable = true
  · simp only [merge_single_database, hr, if_true]
    have hstart : AccInv processed db
        ⟨{ s with
            log := s.log ++ ["开始合并数据库: " ++ db.db_name]
            events := s.events ++ [.sourceStart db.db_name] },
          target_table_names s.target, 0, 0⟩ :=
      ⟨⟨hmono.nodup, hmono.keys_eq, hmono.conflicts_eq,
        hmono.no_conflict_rows, hmono.res_method, hmono.meta_mem,
        hmono.meta_src, hmono.fidelity⟩, rfl⟩
    have hacc := merge_tables_fold_inv cfg processed db db.tables _
      (fun t ht => ht) hstart
    exact ⟨hacc.inv.nodup, hacc.inv.keys_eq, hacc.inv.conflicts_eq,
      hacc.inv.no_conflict_rows, hacc.inv.res_method, hacc.inv.meta_mem,
      hacc.inv.meta_src, hacc.inv.fidelity⟩
  · simp only [merge_single_database, hr, if_false]
    exact ⟨hmono.nodup, hmono.keys_eq, hmono.conflicts_eq,
      hmono.no_conflict_rows, hmono.res_method, hmono.meta_mem,
      hmono.meta_src, hmono.fidelity⟩

theorem merge_pass_inv (cfg : Config) :
    ∀ (srcs processed : List SourceDatabase) (s : MergerState),
      MergerInv processed s →
      MergerInv (processed ++ srcs) (merge_pass cfg s srcs) := by
  intro srcs
  induction srcs with
  | nil => intro processed s h; simpa [merge_pass] using h
  | cons db rest ih =>
    intro processed s h
    have h1 := merge_single_inv cfg processed s db h
    have h2 := ih (processed ++ [db]) _ h1
    have heq : processed ++ [db] ++ rest = processed ++ db :: rest := by simp
    rw [heq] at h2
    exact h2

theorem init_inv : MergerInv [] init_output_database := by
  refine ⟨?_, ?_, ?_, ?_, ?_, ?_, ?_, ?_⟩
  · decide
  · rfl
  · rfl
  · rfl
  · intro p hp; exact absurd hp (List.not_mem_nil p)
  · intro m hm; exact absurd hm (List.not_mem_nil m)
  · intro m hm; exact absurd hm (List.not_mem_nil m)
  · intro _ m hm; exact absurd hm (List.not_mem_nil m)

/-- The merger invariant holds of the final state of every run. -/
theorem run_merger_inv (cfg : Config) (sources : List SourceDatabase) :
    MergerInv sources (run_merger cfg sources).1 := by
  have h1 : MergerInv ([] : List SourceDatabase)
      { init_output_database with
        stats := { init_output_database.stats with
          total_databases := sources.length } } :=
    ⟨init_inv.nodup, init_inv.keys_eq, init_inv.conflicts_eq,
     init_inv.no_conflict_rows, init_inv.res_method, init_inv.meta_mem,
     init_inv.meta_src, init_inv.fidelity⟩
  have h2 := merge_pass_inv cfg sources [] _ h1
  rw [List.nil_append] at h2
  exact ⟨h2.nodup, h2.keys_eq, h2.conflicts_eq, h2.no_conflict_rows,
    h2.res_method, h2.meta_mem, h2.meta_src, h2.fidelity⟩

theorem commit_count_append (a b : List MergeEvent) :
    commit_count (a ++ b) = commit_count a + commit_count b := by
  simp [commit_count, List.filter_append]

theorem merge_one_table_events (cfg : Config) (db_name : String)
    (acc : MergeAcc) (tbl : SourceTable) :
    (merge_one_table cfg db_name acc tbl).st.events = acc.st.events := by
  by_cases hc : tbl.create_ok
  · rw [merge_one_table_ok_eq cfg db_name acc tbl hc]
  · exact (merge_one_table_fail cfg db_name acc tbl
      (by simpa using hc)).2.2.2.1

theorem merge_tables_fold_events (cfg : Config) (db_name : String) :
    ∀ (tbls : List SourceTable) (acc : MergeAcc),
      ((tbls.foldl (merge_one_table cfg db_name) acc).st.events =
        acc.st.events) := by
  intro tbls
  induction tbls with
  | nil => intro acc; rfl
  | cons t rest ih =>
    intro acc
    rw [List.foldl_cons, ih, merge_one_table_events]

/-- The events contributed by one source: its start and its completion —
and no commit. -/
theorem merge_single_events (cfg : Config) (s : MergerState)
    (db : SourceDatabase) :
    (merge_single_database cfg s db).events =
      s.events ++ [.sourceStart db.db_name,
        .sourceDone db.db_name db.readable] := by
  by_cases hr : db.readable = true
  · simp only [merge_single_database, hr, if_true]
    rw [merge_tables_fold_events]
    simp [hr]
  · simp only [merge_single_database, hr, if_false]
    rw [Bool.not_eq_true] at hr
    simp [hr]

theorem merge_pass_commit_count (cfg : Config) :
    ∀ (srcs : List SourceDatabase) (s : MergerState),
      commit_count (merge_pass cfg s srcs).events =
        commit_count s.events := by
  intro srcs
  induction srcs with
  | nil => intro s; rfl
  | cons db rest ih =>
    intro s
    have h1 : merge_pass cfg s (db :: rest) =
        merge_pass cfg (merge_single_database cfg s db) rest := rfl
    rw [h1, ih, merge_single_events, commit_count_append]
    rfl

theorem merge_one_table_failed (cfg : Config) (db_name : String)
    (acc : MergeAcc) (tbl : SourceTable) :
    (merge_one_table cfg db_name acc tbl).st.stats.failed_merges =
      acc.st.stats.failed_merges := by
  by_cases hc : tbl.create_ok
  · rw [merge_one_table_ok_eq cfg db_name acc tbl hc]
  · rw [(merge_one_table_fail cfg db_name acc tbl (by simpa using hc)).2.2.1]

theorem merge_tables_fold_failed (cfg : Config) (db_name : String) :
    ∀ (tbls : List SourceTable) (acc : MergeAcc),
      ((tbls.foldl (merge_one_table cfg db_name) acc).st.stats.failed_merges =
        acc.st.stats.failed_merges) := by
  intro tbls
  induction tbls with
  | nil => intro acc; rfl
  | cons t rest ih =>
    intro acc
    rw [List.foldl_cons, ih, merge_one_table_failed]

theorem merge_single_failed_le (cfg : Config) (s : MergerState)
    (db : SourceDatabase) :
    s.stats.failed_merges ≤
      (merge_single_database cfg s db).stats.failed_merges := by
  by_cases hr : db.readable = true
  · simp only [merge_single_database, hr, if_true]
    rw [show ((db.tables.foldl (merge_one_table cfg db.db_name)
        ⟨{ s with
            log := s.log ++ ["开始合并数据库: " ++ db.db_name]
            events := s.events ++ [.sourceStart db.db_name] },
          target_table_names s.target, 0, 0⟩).st.stats.failed_merges) =
        s.stats.failed_merges from merge_tables_fold_failed cfg db.db_name
          db.tables _]
  · rw [Bool.not_eq_true] at hr
    rw [(merge_single_unreadable cfg s db hr).2.2]
    show s.stats.failed_merges ≤ s.stats.failed_merges + 1
    omega

theorem merge_pass_failed_le (cfg : Config) :
    ∀ (srcs : List SourceDatabase) (s : MergerState),
      s.stats.failed_merges ≤ (merge_pass cfg s srcs).stats.failed_merges := by
  intro srcs
  induction srcs with
  | nil => intro s; exact Nat.le_refl _
  | cons db rest ih =>
    intro s
    have h1 : merge_pass cfg s (db :: rest) =
        merge_pass cfg (merge_single_database cfg s db) rest := rfl
    rw [h1]
    exact Nat.le_trans (merge_single_failed_le cfg s db)
      (ih (merge_single_database cfg s db))

/-- Number of metadata rows added by the per-table loop: one per table whose
`CREATE TABLE` succeeds — no filtering by table name. -/
theorem merge_tables_fold_meta_count (cfg : Config) (db_name : String) :
    ∀ (tbls : List SourceTable) (acc : MergeAcc),
      ((tbls.foldl (merge_one_table cfg db_name)
          acc).st.target.metadata_rows.length =
        acc.st.target.metadata_rows.length +
          (tbls.filter (fun t => t.create_ok)).length) := by
  intro tbls
  induction tbls with
  | nil => intro acc; simp
  | cons t rest ih =>
    intro acc
    rw [List.foldl_cons, ih]
    by_cases hc : t.create_ok
    · rw [merge_one_table_ok_eq cfg db_name acc t hc]
      simp [List.filter_cons, hc]
      omega
    · have hc2 : t.create_ok = false := by simpa using hc
      rw [(merge_one_table_fail cfg db_name acc t hc2).1]
      simp [List.filter_cons, hc2]

/-- Metadata rows added by one source database: one per `create_ok` table
when it is readable, none otherwise — again no filtering by name, so
source tables named like the audit tables are counted too. -/
theorem merge_single_meta_count (cfg : Config) (s : MergerState)
    (db : SourceDatabase) :
    (merge_single_database cfg s db).target.metadata_rows.length =
      s.target.metadata_rows.length +
        (if db.readable then
          (db.tables.filter (fun t => t.create_ok)).length
         else 0) := by
  by_cases hr : db.readable = true
  · simp only [merge_single_database, hr, if_true]
    rw [merge_tables_fold_meta_count]
  · simp only [merge_single_database, hr, if_false]
    rw [Bool.not_eq_true] at hr
    simp [hr]

theorem contains_eq_false_of_not_mem {l : List String} {a : String}
    (h : a ∉ l) : l.contains a = false := by
  simp [List.contains, h]

/-! ### Claim theorems -/

/-- C1: Uniqueness of target table names — after any run of the merge over
any list of source databases, no two tables in the target database (the two
audit tables included) share a name.  Internally this rests on the fact
that every name handed to `CREATE TABLE` is absent from the set of names
already materialized at that moment (`AccInv`/`resolved_name_not_mem`). -/
theorem c1_target_table_names_unique (cfg : Config)
    (sources : List SourceDatabase) :
    (target_table_names (run_merger cfg sources).1.target).Nodup :=
  (run_merger_inv cfg sources).nodup

/-- C9: Unconditional conflict-counter increment — at the end of any run the
in-memory `conflicts` statistic equals the number of successfully created
application tables (each successful `create_table_with_prefix` incremented
it exactly once, collision or not), not the number of genuine name
collisions. -/
theorem c9_conflict_counter_counts_creations (cfg : Config)
    (sources : List SourceDatabase) :
    (run_merger cfg sources).1.stats.conflicts =
      (run_merger cfg sources).1.target.app_tables.length :=
  (run_merger_inv cfg sources).conflicts_eq

/-- C2 (counterexample): the claim extends row-count fidelity to copies that
raise a non-integrity error partway through.  On a source whose second row
raises a non-integrity error, the row inserted before the error stays in
the merged table while `copy_table_data` returns 0, so the recorded
`row_count` (0) differs from the rows actually present (1). -/
theorem c2_counterexample :
    ¬ row_count_faithful (run_merger ⟨50, true⟩
      [⟨"d1", true, [⟨"t", [⟨0, "id", "INTEGER", false, none, true⟩],
        [⟨[1], .ok⟩, ⟨[2], .fatalError "disk I/O error"⟩],
        true⟩]⟩]).1.target := by
  decide

/-- C2 (amended): row-count fidelity holds for every run in which no row
insert raises a non-integrity error: every `merge_metadata` row's
`row_count` equals the number of rows actually present in its merged
table. -/
theorem c2_row_count_fidelity_no_fatal (cfg : Config)
    (sources : List SourceDatabase) (h : FatalFreeList sources) :
    row_count_faithful (run_merger cfg sources).1.target :=
  (run_merger_inv cfg sources).fidelity h

/-- Witness for C2 (amended) at a concrete fatal-free run with one
integrity-skipped row. -/
theorem c2_witness :
    FatalFreeList [⟨"d1", true, [⟨"t",
      [⟨0, "id", "INTEGER", false, none, true⟩],
      [⟨[1], .ok⟩, ⟨[2], .integrityError "UNIQUE constraint failed"⟩,
       ⟨[3], .ok⟩], true⟩]⟩] ∧
    row_count_faithful (run_merger ⟨50, true⟩
      [⟨"d1", true, [⟨"t",
        [⟨0, "id", "INTEGER", false, none, true⟩],
        [⟨[1], .ok⟩, ⟨[2], .integrityError "UNIQUE constraint failed"⟩,
         ⟨[3], .ok⟩], true⟩]⟩]).1.target :=
  ⟨by decide, c2_row_count_fidelity_no_fatal ⟨50, true⟩
    [⟨"d1", true, [⟨"t",
      [⟨0, "id", "INTEGER", false, none, true⟩],
      [⟨[1], .ok⟩, ⟨[2], .integrityError "UNIQUE constraint failed"⟩,
       ⟨[3], .ok⟩], true⟩]⟩] (by decide)⟩

/-- C3 (counterexample): the claim says every table creation persists one
`ConflictRecord` row in the `merge_conflicts` audit table.  A run that
creates one table leaves `merge_conflicts` empty: no code path ever inserts
into it. -/
theorem c3_counterexample :
    ¬ conflict_rows_match_creations (run_merger ⟨50, true⟩
      [⟨"d1", true, [⟨"t", [⟨0, "id", "INTEGER", false, none, false⟩],
        [], true⟩]⟩]).1 := by
  decide

/-- C3 (amended): per table creation, exactly one entry is recorded — but in
the in-memory `conflict_resolution` dict (keyed by the created name, with
`resolution_method = 'prefix_with_db_name'`), later emitted in the JSON
report; the `merge_conflicts` audit table itself stays empty in every
run. -/
theorem c3_conflict_records_in_memory_only (cfg : Config)
    (sources : List SourceDatabase) :
    (run_merger cfg sources).1.target.conflict_table_rows = [] ∧
    (run_merger cfg sources).1.conflict_resolution.map Prod.fst =
      (run_merger cfg sources).1.target.app_tables.map Prod.fst ∧
    ((run_merger cfg sources).1.conflict_resolution.all
      (fun p => p.2.resolution_method == "prefix_with_db_name")) = true := by
  refine ⟨(run_merger_inv cfg sources).no_conflict_rows,
    (run_merger_inv cfg sources).keys_eq, ?_⟩
  rw [List.all_eq_true]
  intro p hp
  exact beq_iff_eq.mpr ((run_merger_inv cfg sources).res_method p hp)

/-- The truncation step itself always respects the bound (for any
`max_len ≥ 2`): both the untruncated branch (guarded by the length test)
and the reassembled truncated name fit in `max_len`. -/
theorem truncated_base_name_length_le (max_len : Nat)
    (original_table db_name : String) (h2 : 2 ≤ max_len) :
    (truncated_base_name max_len original_table db_name).length ≤ max_len := by
  unfold truncated_base_name
  by_cases hlt : max_len < (db_name ++ "_" ++ original_table).length
  · simp only [hlt, if_true]
    have hd : (pyTake db_name (max 1 (max_len / 2 - 5))).length ≤
        max 1 (max_len / 2 - 5) := by
      rw [pyTake_length]
      exact Nat.min_le_left _ _
    have hhalf : max_len / 2 ≤ max_len := Nat.div_le_self _ _
    have hMb : max 1 (max_len / 2 - 5) + 1 ≤ max_len := by
      rcases max_choice 1 (max_len / 2 - 5) with hM | hM <;> rw [hM] <;> omega
    have hdle : (pyTake db_name (max 1 (max_len / 2 - 5))).length + 1 ≤
        max_len := by
      omega
    have hmtp : (0 : Int) ≤ (max_len : Int) -
        ((pyTake db_name (max 1 (max_len / 2 - 5))).length : Int) - 1 := by
      omega
    rw [pySlice, if_pos hmtp]
    have htp : (pyTake original_table
        ((max_len : Int) -
          ((pyTake db_name (max 1 (max_len / 2 - 5))).length : Int) -
          1).toNat).length ≤
        ((max_len : Int) -
          ((pyTake db_name (max 1 (max_len / 2 - 5))).length : Int) -
          1).toNat := by
      rw [pyTake_length]
      exact Nat.min_le_left _ _
    simp only [String.length_append]
    have hone : ("_" : String).length = 1 := rfl
    omega
  · simp only [hlt, if_false]
    omega

/-- C4 (counterexample): the claim bounds the length of *every* name the
conflict-resolution step returns.  With the default `max_len = 50`, a
25-char db name and a 24-char table name whose joined form (exactly 50
chars, so never truncated) already exists, the uniqueness loop returns the
52-char `..._1`, exceeding the bound. -/
theorem c4_counterexample :
    ¬ (resolve_table_name_conflict 50 "bbbbbbbbbbbbbbbbbbbbbbbb"
      "aaaaaaaaaaaaaaaaaaaaaaaaa"
      ["aaaaaaaaaaaaaaaaaaaaaaaaa_bbbbbbbbbbbbbbbbbbbbbbbb"]).length ≤ 50 := by
  decide

/-- C4 (amended): the truncation bound holds for every name returned
*without* a uniqueness-counter suffix, for any `max_len ≥ 2`: whenever the
(possibly truncated) base name is not already taken, the returned name is
that base name and its length is at most `max_len`.  Names that needed a
`_1`, `_2`, ... suffix may exceed the bound (see the counterexample). -/
theorem c4_truncation_bound_without_suffix (max_len : Nat)
    (original_table db_name : String) (existing : List String)
    (h2 : 2 ≤ max_len)
    (hbase : truncated_base_name max_len original_table db_name ∉ existing) :
    (resolve_table_name_conflict max_len original_table db_name
      existing).length ≤ max_len := by
  unfold resolve_table_name_conflict ensure_unique
  rw [if_neg hbase]
  exact truncated_base_name_length_le max_len original_table db_name h2

/-- Witness for C4 (amended) at a concrete suffix-free resolution. -/
theorem c4_witness :
    2 ≤ 50 ∧
    truncated_base_name 50 "orders" "db1" ∉ ["orders"] ∧
    (resolve_table_name_conflict 50 "orders" "db1" ["orders"]).length ≤ 50 :=
  ⟨by decide, by decide,
    c4_truncation_bound_without_suffix 50 "orders" "db1" ["orders"]
      (by decide) (by decide)⟩

/-- C5 (counterexample): the claim says one commit is issued per completed
source database.  A run over two (empty, readable) sources completes two
sources but issues a single commit, after the whole pass. -/
theorem c5_counterexample :
    ¬ one_commit_per_completed_source (run_merger ⟨50, true⟩
      [⟨"a", true, []⟩, ⟨"b", true, []⟩]).1 := by
  decide

/-- C5 (amended): during the merge pass no commit is issued at all — per
source, table or row; exactly one commit against the target connection is
issued, once, after the last source finishes
(`merge_sqlite_databases.py:327-329`). -/
theorem c5_one_commit_after_whole_pass (cfg : Config)
    (sources : List SourceDatabase) :
    commit_count (run_merger cfg sources).1.events = 1 ∧
    ∃ pre, (run_merger cfg sources).1.events = pre ++ [MergeEvent.commit] ∧
      commit_count pre = 0 := by
  have hev : (run_merger cfg sources).1.events =
      (merge_pass cfg
        { init_output_database with
          stats := { init_output_database.stats with
            total_databases := sources.length } } sources).events ++
        [MergeEvent.commit] := rfl
  constructor
  · rw [hev, commit_count_append, merge_pass_commit_count]
    rfl
  · refine ⟨_, hev, ?_⟩
    rw [merge_pass_commit_count]
    rfl

/-- C6 (counterexample): the claim says source tables named like the audit
tables are not introspected, materialized or copied.  A source database
containing a table named `merge_metadata` gets that table merged like any
other (renamed by conflict resolution, its row copied, and recorded in the
audit trail with `original_table_name = "merge_metadata"`). -/
theorem c6_counterexample :
    ¬ audit_names_excluded (run_merger ⟨50, true⟩
      [⟨"d", true, [⟨"merge_metadata",
        [⟨0, "x", "INTEGER", false, none, false⟩],
        [⟨[7], .ok⟩], true⟩]⟩]).1 := by
  decide

/-- C6 (amended): the two audit-table names are reserved only in the target
namespace: no application table is ever created under either name (any
source table so named is renamed by conflict resolution, since the audit
tables exist from initialization).  Source tables bearing those names are
*not* excluded from merging: every `create_ok` table of a readable source —
whatever its name — produces its `merge_metadata` row. -/
theorem c6_audit_names_reserved_in_target_only (cfg : Config)
    (sources : List SourceDatabase) (s : MergerState)
    (db : SourceDatabase) :
    ((run_merger cfg sources).1.target.app_tables.map Prod.fst).contains
      "merge_metadata" = false ∧
    ((run_merger cfg sources).1.target.app_tables.map Prod.fst).contains
      "merge_conflicts" = false ∧
    (merge_single_database cfg s db).target.metadata_rows.length =
      s.target.metadata_rows.length +
        (if db.readable then
          (db.tables.filter (fun t => t.create_ok)).length
         else 0) := by
  have hnodup := (run_merger_inv cfg sources).nodup
  simp only [target_table_names] at hnodup
  refine ⟨contains_eq_false_of_not_mem ?_, contains_eq_false_of_not_mem ?_,
    merge_single_meta_count cfg s db⟩
  · intro hmem
    exact (List.nodup_cons.mp hnodup).1 (List.mem_cons_of_mem _ hmem)
  · intro hmem
    exact (List.nodup_cons.mp (List.nodup_cons.mp hnodup).2).1 hmem

/-- C7: Per-row skip handling in the row copier — when no row raises a
non-integrity error, every failed insert (an `sqlite3.IntegrityError`:
NOT NULL violation, primary-key duplication, type mismatch) is caught
individually: the row is skipped, the per-table skip counter counts every
skip, only the first 5 skip causes are logged, and the copier returns (and
actually wrote) exactly the successfully inserted rows. -/
theorem c7_per_row_skip_handling (tbl : SourceTable) (target_table : String)
    (h : ∀ r ∈ tbl.rows, r.outcome.isFatal = false) :
    (copy_table_data tbl target_table).inserted = (ok_rows tbl.rows).length ∧
    (copy_table_data tbl target_table).written = ok_rows tbl.rows ∧
    (copy_table_data tbl target_table).skipped =
      (integrity_msgs tbl.rows).length ∧
    (copy_table_data tbl target_table).skip_logs =
      ((integrity_msgs tbl.rows).take 5).map (skip_log_line target_table) := by
  rw [copy_table_data_char tbl target_table h]
  exact ⟨rfl, rfl, rfl, rfl⟩

/-- Witness for C7 at a concrete table with 6 integrity failures (so only
the first 5 are logged) and 2 successful inserts. -/
theorem c7_witness :
    (∀ r ∈ (SourceTable.mk "t"
        [] [⟨[1], .ok⟩, ⟨[2], .integrityError "e1"⟩,
            ⟨[3], .integrityError "e2"⟩, ⟨[4], .integrityError "e3"⟩,
            ⟨[5], .integrityError "e4"⟩, ⟨[6], .integrityError "e5"⟩,
            ⟨[7], .integrityError "e6"⟩, ⟨[8], .ok⟩] true).rows,
      r.outcome.isFatal = false) ∧
    ((copy_table_data (SourceTable.mk "t"
        [] [⟨[1], .ok⟩, ⟨[2], .integrityError "e1"⟩,
            ⟨[3], .integrityError "e2"⟩, ⟨[4], .integrityError "e3"⟩,
            ⟨[5], .integrityError "e4"⟩, ⟨[6], .integrityError "e5"⟩,
            ⟨[7], .integrityError "e6"⟩, ⟨[8], .ok⟩] true) "t2").inserted =
      (ok_rows (SourceTable.mk "t"
        [] [⟨[1], .ok⟩, ⟨[2], .integrityError "e1"⟩,
            ⟨[3], .integrityError "e2"⟩, ⟨[4], .integrityError "e3"⟩,
            ⟨[5], .integrityError "e4"⟩, ⟨[6], .integrityError "e5"⟩,
            ⟨[7], .integrityError "e6"⟩, ⟨[8], .ok⟩] true).rows).length ∧
     (copy_table_data (SourceTable.mk "t"
        [] [⟨[1], .ok⟩, ⟨[2], .integrityError "e1"⟩,
            ⟨[3], .integrityError "e2"⟩, ⟨[4], .integrityError "e3"⟩,
            ⟨[5], .integrityError "e4"⟩, ⟨[6], .integrityError "e5"⟩,
            ⟨[7], .integrityError "e6"⟩, ⟨[8], .ok⟩] true) "t2").written =
      ok_rows (SourceTable.mk "t"
        [] [⟨[1], .ok⟩, ⟨[2], .integrityError "e1"⟩,
            ⟨[3], .integrityError "e2"⟩, ⟨[4], .integrityError "e3"⟩,
            ⟨[5], .integrityError "e4"⟩, ⟨[6], .integrityError "e5"⟩,
            ⟨[7], .integrityError "e6"⟩, ⟨[8], .ok⟩] true).rows ∧
     (copy_table_data (SourceTable.mk "t"
        [] [⟨[1], .ok⟩, ⟨[2], .integrityError "e1"⟩,
            ⟨[3], .integrityError "e2"⟩, ⟨[4], .integrityError "e3"⟩,
            ⟨[5], .integrityError "e4"⟩, ⟨[6], .integrityError "e5"⟩,
            ⟨[7], .integrityError "e6"⟩, ⟨[8], .ok⟩] true) "t2").skipped =
      (integrity_msgs (SourceTable.mk "t"
        [] [⟨[1], .ok⟩, ⟨[2], .integrityError "e1"⟩,
            ⟨[3], .integrityError "e2"⟩, ⟨[4], .integrityError "e3"⟩,
            ⟨[5], .integrityError "e4"⟩, ⟨[6], .integrityError "e5"⟩,
            ⟨[7], .integrityError "e6"⟩, ⟨[8], .ok⟩] true).rows).length ∧
     (copy_table_data (SourceTable.mk "t"
        [] [⟨[1], .ok⟩, ⟨[2], .integrityError "e1"⟩,
            ⟨[3], .integrityError "e2"⟩, ⟨[4], .integrityError "e3"⟩,
            ⟨[5], .integrityError "e4"⟩, ⟨[6], .integrityError "e5"⟩,
            ⟨[7], .integrityError "e6"⟩, ⟨[8], .ok⟩] true) "t2").skip_logs =
      ((integrity_msgs (SourceTable.mk "t"
        [] [⟨[1], .ok⟩, ⟨[2], .integrityError "e1"⟩,
            ⟨[3], .integrityError "e2"⟩, ⟨[4], .integrityError "e3"⟩,
            ⟨[5], .integrityError "e4"⟩, ⟨[6], .integrityError "e5"⟩,
            ⟨[7], .integrityError "e6"⟩, ⟨[8], .ok⟩] true).rows).take 5).map
        (skip_log_line "t2")) :=
  ⟨by decide, c7_per_row_skip_handling (SourceTable.mk "t"
      [] [⟨[1], .ok⟩, ⟨[2], .integrityError "e1"⟩,
          ⟨[3], .integrityError "e2"⟩, ⟨[4], .integrityError "e3"⟩,
          ⟨[5], .integrityError "e4"⟩, ⟨[6], .integrityError "e5"⟩,
          ⟨[7], .integrityError "e6"⟩, ⟨[8], .ok⟩] true) "t2" (by decide)⟩

/-- C8: Source-failure isolation — when introspection of a source database
fails, `failed_merges` increases by exactly 1, `total_tables` and
`total_rows` are unchanged by that source, no tables from it are created in
the target, the remaining sources are still processed by the pass, and the
final JSON report of any full run containing such a source is still
produced (recording at least one failure). -/
theorem c8_source_failure_isolation (cfg : Config) (s : MergerState)
    (bad : SourceDatabase) (pre post : List SourceDatabase)
    (h : bad.readable = false) :
    (merge_single_database cfg s bad).stats.failed_merges =
      s.stats.failed_merges + 1 ∧
    (merge_single_database cfg s bad).stats.total_tables =
      s.stats.total_tables ∧
    (merge_single_database cfg s bad).stats.total_rows =
      s.stats.total_rows ∧
    (merge_single_database cfg s bad).target = s.target ∧
    merge_pass cfg s (bad :: post) =
      merge_pass cfg (merge_single_database cfg s bad) post ∧
    1 ≤ (run_merger cfg (pre ++ bad :: post)).2.stats.failed_merges := by
  obtain ⟨ht, hcr, hst⟩ := merge_single_unreadable cfg s bad h
  refine ⟨by rw [hst], by rw [hst], by rw [hst], ht, rfl, ?_⟩
  show 1 ≤ (merge_pass cfg
    { init_output_database with
      stats := { init_output_database.stats with
        total_databases := (pre ++ bad :: post).length } }
    (pre ++ bad :: post)).stats.failed_merges
  have hsplit : merge_pass cfg
      { init_output_database with
        stats := { init_output_database.stats with
          total_databases := (pre ++ bad :: post).length } }
      (pre ++ bad :: post) =
    merge_pass cfg (merge_single_database cfg
      (merge_pass cfg
        { init_output_database with
          stats := { init_output_database.stats with
            total_databases := (pre ++ bad :: post).length } } pre) bad)
      post := by
    simp [merge_pass, List.foldl_append]
  rw [hsplit]
  have h1 := merge_pass_failed_le cfg post (merge_single_database cfg
    (merge_pass cfg
      { init_output_database with
        stats := { init_output_database.stats with
          total_databases := (pre ++ bad :: post).length } } pre) bad)
  have h2 := (merge_single_unreadable cfg
    (merge_pass cfg
      { init_output_database with
        stats := { init_output_database.stats with
          total_databases := (pre ++ bad :: post).length } } pre) bad h).2.2
  have h3 : (merge_single_database cfg
      (merge_pass cfg
        { init_output_database with
          stats := { init_output_database.stats with
            total_databases := (pre ++ bad :: post).length } } pre)
      bad).stats.failed_merges =
    (merge_pass cfg
      { init_output_database with
        stats := { init_output_database.stats with
          total_databases := (pre ++ bad :: post).length } }
      pre).stats.failed_merges + 1 := by
    rw [h2]
  omega

/-- Witness for C8 at a run whose single source is unreadable. -/
theorem c8_witness :
    (SourceDatabase.mk "corrupt" false []).readable = false ∧
    ((merge_single_database ⟨50, true⟩ init_output_database
        ⟨"corrupt", false, []⟩).stats.failed_merges =
      init_output_database.stats.failed_merges + 1 ∧
    (merge_single_database ⟨50, true⟩ init_output_database
        ⟨"corrupt", false, []⟩).stats.total_tables =
      init_output_database.stats.total_tables ∧
    (merge_single_database ⟨50, true⟩ init_output_database
        ⟨"corrupt", false, []⟩).stats.total_rows =
      init_output_database.stats.total_rows ∧
    (merge_single_database ⟨50, true⟩ init_output_database
        ⟨"corrupt", false, []⟩).target = init_output_database.target ∧
    merge_pass ⟨50, true⟩ init_output_database [⟨"corrupt", false, []⟩] =
      merge_pass ⟨50, true⟩ (merge_single_database ⟨50, true⟩
        init_output_database ⟨"corrupt", false, []⟩) [] ∧
    1 ≤ (run_merger ⟨50, true⟩
      ([] ++ ⟨"corrupt", false, []⟩ :: [])).2.stats.failed_merges) :=
  ⟨rfl, c8_source_failure_isolation ⟨50, true⟩ init_output_database
    ⟨"corrupt", false, []⟩ [] [] rfl⟩

/-- C10: For every metadata row of any run (i.e. for every created table),
the in-memory conflict-resolution entry keyed by the merged table name —
later emitted as the JSON report's `conflict_resolution` field — stores in
`original_table` the *name of the first column* of the corresponding source
table's schema (`original_schema[0][1]`), or the string `"unknown"` when
the schema is empty; it does not store the source table's own name. -/
theorem c10_resolution_entry_stores_first_column (cfg : Config)
    (sources : List SourceDatabase) (m : MetaRow)
    (hm : m ∈ (run_merger cfg sources).1.target.metadata_rows) :
    ∃ db ∈ sources, ∃ t ∈ db.tables,
      db.db_name = m.source_database ∧ t.name = m.original_table_name ∧
      lookup_resolution (run_merger cfg sources).1.conflict_resolution
        m.merged_table_name =
        some ⟨first_column_name t.schema, "prefix_with_db_name"⟩ :=
  (run_merger_inv cfg sources).meta_src m hm

/-- Witness for C10: at a concrete run the entry for table `t` (whose first
column is `id`) stores `original_table = "id"`, not `"t"`. -/
theorem c10_witness :
    (MetaRow.mk "d1" "t" "t" 1) ∈ (run_merger ⟨50, true⟩
      [⟨"d1", true, [⟨"t",
        [⟨0, "id", "INTEGER", false, none, true⟩,
         ⟨1, "name", "TEXT", true, none, false⟩],
        [⟨[5], .ok⟩], true⟩]⟩]).1.target.metadata_rows ∧
    ∃ db ∈ [SourceDatabase.mk "d1" true [⟨"t",
        [⟨0, "id", "INTEGER", false, none, true⟩,
         ⟨1, "name", "TEXT", true, none, false⟩],
        [⟨[5], .ok⟩], true⟩]], ∃ t ∈ db.tables,
      db.db_name = (MetaRow.mk "d1" "t" "t" 1).source_database ∧
      t.name = (MetaRow.mk "d1" "t" "t" 1).original_table_name ∧
      lookup_resolution (run_merger ⟨50, true⟩
        [⟨"d1", true, [⟨"t",
          [⟨0, "id", "INTEGER", false, none, true⟩,
           ⟨1, "name", "TEXT", true, none, false⟩],
          [⟨[5], .ok⟩], true⟩]⟩]).1.conflict_resolution
        (MetaRow.mk "d1" "t" "t" 1).merged_table_name =
        some ⟨first_column_name t.schema, "prefix_with_db_name"⟩ :=
  ⟨by decide, c10_resolution_entry_stores_first_column ⟨50, true⟩
    [⟨"d1", true, [⟨"t",
      [⟨0, "id", "INTEGER", false, none, true⟩,
       ⟨1, "name", "TEXT", true, none, false⟩],
      [⟨[5], .ok⟩], true⟩]⟩] (MetaRow.mk "d1" "t" "t" 1) (by decide)⟩
